import Mathlib

/-!
# Redline — review session core, change-set resolver and TOML export

Shallow embedding of the Redline VS Code extension's core
(`reviewSession.ts`, `gitService.ts`, `toml.ts`, `reviewManager.ts`,
`commentController.ts`) into Lean 4, together with proofs settling the
frozen claims about the natural-language specification.

Modelling conventions:
* JavaScript `Map` objects (insertion-ordered, one entry per key) are
  embedded as insertion-ordered lists; `Map.set` replaces in place when
  the key exists and appends otherwise.
* The ambient clock (`new Date()`) and the process-wide comment-id
  counter (`let nextCommentId = 1`) are threaded explicitly.
* Each `await`ed git command of the resolver is represented by its
  outcome: `Except Unit lines` — `.error` when the command threw (the
  source wraps every pass in `try`/`catch`), `.ok` with the raw output
  already split into lines otherwise.
* Strings are manipulated through their character lists so that every
  definition evaluates inside the kernel.
-/

/-! ## Character and string utilities (embeddings of the JS string ops) -/

/-- Concat-map over characters; used to embed single-character global
`String.prototype.replace` calls, which rewrite each occurrence of a
one-character pattern independently. -/
def cmap (f : Char → List Char) : List Char → List Char
  | [] => []
  | c :: rest => f c ++ cmap f rest

/-- Embedding of JS `line.split('\t')`: split on every tab, keeping empty
segments (`"a\t\tb" → ["a","","b"]`, `"" → [""]`). -/
def splitTab : List Char → List (List Char)
  | [] => [[]]
  | c :: rest =>
    if c = '\t' then [] :: splitTab rest
    else
      match splitTab rest with
      | p :: ps => (c :: p) :: ps
      | [] => [[c]]

/-- JS whitespace test restricted to the characters that can occur in git
plumbing output. -/
def isWsChar (c : Char) : Bool :=
  c = ' ' || c = '\t' || c = '\n' || c = '\r'

/-- Embedding of JS `String.prototype.trim`. -/
def jsTrim (s : String) : String :=
  ⟨((s.toList.dropWhile isWsChar).reverse.dropWhile isWsChar).reverse⟩

/-- Embedding of JS `s.charAt(0)`: first character as a string, `""` when
the string is empty. -/
def charAt0 (s : String) : String :=
  match s.toList with
  | [] => ""
  | c :: _ => ⟨[c]⟩

/-- Decimal digit character (counter values are rendered in decimal by the
JS template literal). -/
def decDigit (n : Nat) : Char :=
  Char.ofNat (48 + n)

/-- Fuel-indexed digit expansion (structural recursion, so that concrete
values reduce inside the kernel). -/
def decDigitsAux : Nat → Nat → List Char
  | 0, _ => []
  | fuel + 1, n =>
    if n < 10 then [decDigit n]
    else decDigitsAux fuel (n / 10) ++ [decDigit (n % 10)]

/-- Decimal digit list of a natural number, most significant first —
the character sequence produced by JS `${n}` for a number `n`. -/
def decDigits (n : Nat) : List Char := decDigitsAux (n + 1) n

/-- Decimal rendering of a natural number (JS `${n}`). -/
def decString (n : Nat) : String := ⟨decDigits n⟩

/-! ## Review data model (`src/review/types.ts`, `src/git/types.ts`) -/

/-- Embeds `export type CommentSeverity = 'must_fix' | 'suggestion' | 'nitpick' | 'question'`. -/
inductive CommentSeverity where
  | must_fix | suggestion | nitpick | question
deriving DecidableEq, Repr

/-- Embeds `export type ReviewDecision = 'approve' | 'comment' | 'request_changes'`. -/
inductive ReviewDecision where
  | approve | comment | request_changes
deriving DecidableEq, Repr

/-- The `FileStatus` of `src/git/types.ts`: `added | modified | deleted | renamed`. -/
inductive FileStatus where
  | added | modified | deleted | renamed
deriving DecidableEq, Repr

/-- The `ChangedFile` record of `src/git/types.ts`. -/
structure ChangedFile where
  path : String
  status : FileStatus
  additions : Nat
  deletions : Nat
  oldPath : Option String := none
deriving DecidableEq, Repr

/-- The `ReviewComment` record of `src/review/types.ts`. -/
structure ReviewComment where
  id : String
  file : String
  line : Nat
  endLine : Option Nat
  severity : CommentSeverity
  body : String
  codeContext : Option String
  resolved : Bool
  timestamp : String
deriving DecidableEq, Repr

/-- The `ReviewedFile` record of `src/review/types.ts` (status kept as a plain string
there). -/
structure ReviewedFile where
  path : String
  status : FileStatus
  reviewed : Bool
deriving DecidableEq, Repr

/-- The `ReviewStats` record of `src/review/types.ts`. -/
structure ReviewStats where
  filesChanged : Nat
  filesReviewed : Nat
  totalComments : Nat
  mustFix : Nat
  suggestions : Nat
  nitpicks : Nat
  questions : Nat
deriving DecidableEq, Repr

/-- The observable part of a JS `Date`: the local calendar fields read by
`formatDateId` plus the value of `toISOString()`. -/
structure SessionDate where
  year : Nat
  monthIndex : Nat
  day : Nat
  hours : Nat
  minutes : Nat
  seconds : Nat
  iso : String
deriving DecidableEq, Repr

/-- The `ReviewData` record of `src/review/types.ts`. -/
structure ReviewData where
  id : String
  timestamp : String
  baseRef : String
  headRef : String
  decision : ReviewDecision
  summary : String
  stats : ReviewStats
  comments : List ReviewComment
  reviewedFiles : List ReviewedFile
deriving DecidableEq, Repr

/-! ## ReviewSession (`src/review/reviewSession.ts`) -/

/-- Session state: the two insertion-ordered maps (`_files` keyed by path,
`_comments` keyed by id) and the immutable refs and start date. -/
structure ReviewSession where
  files : List (ChangedFile × Bool)
  comments : List ReviewComment
  baseRef : String
  headRef : String
  startedAt : SessionDate
deriving DecidableEq, Repr

/-- Embedding of `Map.set` on the comments map: replace in place when the id exists,
append otherwise. -/
def commentsSet (l : List ReviewComment) (c : ReviewComment) : List ReviewComment :=
  if l.any (fun d => d.id = c.id) then
    l.map (fun d => if d.id = c.id then c else d)
  else l ++ [c]

/-- Embedding of `Map.set` on the files map, keyed by `file.path`. -/
def filesSet (l : List (ChangedFile × Bool)) (e : ChangedFile × Bool) :
    List (ChangedFile × Bool) :=
  if l.any (fun x => x.1.path = e.1.path) then
    l.map (fun x => if x.1.path = e.1.path then e else x)
  else l ++ [e]

/-- The `ReviewSession` constructor: inserts every changed file as
unreviewed. -/
def mkSession (baseRef headRef : String) (files : List ChangedFile)
    (startedAt : SessionDate) : ReviewSession :=
  { files := files.foldl (fun acc f => filesSet acc (f, false)) []
    comments := []
    baseRef := baseRef
    headRef := headRef
    startedAt := startedAt }

/-- The comment id issued for counter value `n`:
JS `` `comment-${nextCommentId++}` ``. -/
def commentIdString (n : Nat) : String :=
  "comment-" ++ decString n

/-- Embedding of `ReviewSession.addComment`.  Here `ctr` is the current value of the
module-level `nextCommentId` counter and `now` is `new Date().toISOString()`.
Returns the created comment, the updated session and the updated counter.
Note: no validation of `file` against the session's file map occurs. -/
def addComment (s : ReviewSession) (ctr : Nat) (file : String) (line : Nat)
    (body : String) (severity : CommentSeverity) (endLine : Option Nat)
    (codeContext : Option String) (now : String) :
    ReviewComment × ReviewSession × Nat :=
  let c : ReviewComment :=
    { id := commentIdString ctr
      file := file
      line := line
      endLine := endLine
      severity := severity
      body := body
      codeContext := codeContext
      resolved := false
      timestamp := now }
  (c, { s with comments := commentsSet s.comments c }, ctr + 1)

/-- Embedding of `ReviewSession.removeComment` — `Map.delete`, returning whether the id
was present. -/
def removeComment (s : ReviewSession) (commentId : String) :
    Bool × ReviewSession :=
  (s.comments.any (fun c => c.id = commentId),
   { s with comments := s.comments.filter (fun c => ¬ c.id = commentId) })

/-- Embedding of `ReviewSession.updateComment` — in-place update of the found comment's
`body` (and `severity` when provided); no-op when the id is unknown. -/
def updateComment (s : ReviewSession) (commentId : String) (body : String)
    (severity : Option CommentSeverity) : ReviewSession :=
  match s.comments.find? (fun c => decide (c.id = commentId)) with
  | none => s
  | some _ =>
    { s with comments := s.comments.map (fun c =>
        if c.id = commentId then
          { c with body := body, severity := severity.getD c.severity }
        else c) }

/-- Embedding of `ReviewSession.toggleResolved`. -/
def toggleResolved (s : ReviewSession) (commentId : String) :
    Bool × ReviewSession :=
  match s.comments.find? (fun c => decide (c.id = commentId)) with
  | none => (false, s)
  | some c =>
    (!c.resolved,
     { s with comments := s.comments.map (fun d =>
         if d.id = commentId then { d with resolved := !d.resolved } else d) })

/-- Embedding of `ReviewSession.markFileReviewed`. -/
def markFileReviewed (s : ReviewSession) (filePath : String) : ReviewSession :=
  { s with files := s.files.map (fun e =>
      if e.1.path = filePath then (e.1, true) else e) }

/-- Embedding of `ReviewSession.unmarkFileReviewed`. -/
def unmarkFileReviewed (s : ReviewSession) (filePath : String) : ReviewSession :=
  { s with files := s.files.map (fun e =>
      if e.1.path = filePath then (e.1, false) else e) }

/-- Embedding of `ReviewSession.toggleFileReviewed`. -/
def toggleFileReviewed (s : ReviewSession) (filePath : String) :
    Bool × ReviewSession :=
  match s.files.find? (fun e => decide (e.1.path = filePath)) with
  | none => (false, s)
  | some e =>
    (!e.2,
     { s with files := s.files.map (fun x =>
         if x.1.path = filePath then (x.1, !x.2) else x) })

/-- Embedding of `ReviewSession.getFilePaths`. -/
def getFilePaths (s : ReviewSession) : List String :=
  s.files.map (fun e => e.1.path)

/-- Embedding of `ReviewSession.getStats` — recomputed from the current maps on every
call. -/
def getStats (s : ReviewSession) : ReviewStats :=
  { filesChanged := s.files.length
    filesReviewed := (s.files.filter (fun e => e.2)).length
    totalComments := s.comments.length
    mustFix := (s.comments.filter (fun c => decide (c.severity = .must_fix))).length
    suggestions := (s.comments.filter (fun c => decide (c.severity = .suggestion))).length
    nitpicks := (s.comments.filter (fun c => decide (c.severity = .nitpick))).length
    questions := (s.comments.filter (fun c => decide (c.severity = .question))).length }

/-- Embedding of `padStart(2, '0')` on the decimal rendering of `n`. -/
def pad2 (n : Nat) : String :=
  let s := decString n
  if s.length < 2 then "0" ++ s else s

/-- Embedding of `formatDateId` of `reviewSession.ts`:
`YYYY-MM-DD-HHMMSS` built from the local date fields. -/
def formatDateId (d : SessionDate) : String :=
  decString d.year ++ "-" ++ pad2 (d.monthIndex + 1) ++ "-" ++ pad2 d.day ++
    "-" ++ pad2 d.hours ++ pad2 d.minutes ++ pad2 d.seconds

/-- Embedding of `ReviewSession.toReviewData` — a pure read of the session state (the
method body performs no writes), embedded accordingly as a function that
does not return an updated session. -/
def toReviewData (s : ReviewSession) (decision : ReviewDecision)
    (summary : String) : ReviewData :=
  { id := "review-" ++ formatDateId s.startedAt
    timestamp := s.startedAt.iso
    baseRef := s.baseRef
    headRef := s.headRef
    decision := decision
    summary := summary
    stats := getStats s
    comments := s.comments
    reviewedFiles := s.files.map (fun e =>
      { path := e.1.path, status := e.1.status, reviewed := e.2 }) }

/-! ## Session operation language

Used to quantify over "any sequence of calls" on a session.  `add` carries
the clock reading used for the comment's timestamp. -/

/-- One mutating call on a `ReviewSession`. -/
inductive SessionOp where
  | add (file : String) (line : Nat) (body : String) (severity : CommentSeverity)
      (endLine : Option Nat) (codeContext : Option String) (now : String)
  | remove (commentId : String)
  | update (commentId : String) (body : String) (severity : Option CommentSeverity)
  | toggleRes (commentId : String)
  | markRev (path : String)
  | unmarkRev (path : String)
  | toggleRev (path : String)

/-- Apply one operation, threading the process-wide comment-id counter. -/
def applySessionOp (s : ReviewSession) (ctr : Nat) :
    SessionOp → ReviewSession × Nat
  | .add f l b sev e cc now =>
    let r := addComment s ctr f l b sev e cc now
    (r.2.1, r.2.2)
  | .remove cid => ((removeComment s cid).2, ctr)
  | .update cid b sev => (updateComment s cid b sev, ctr)
  | .toggleRes cid => ((toggleResolved s cid).2, ctr)
  | .markRev p => (markFileReviewed s p, ctr)
  | .unmarkRev p => (unmarkFileReviewed s p, ctr)
  | .toggleRev p => ((toggleFileReviewed s p).2, ctr)

/-- Run a sequence of session operations. -/
def runOps (s : ReviewSession) (ctr : Nat) : List SessionOp → ReviewSession × Nat
  | [] => (s, ctr)
  | op :: ops =>
    let r := applySessionOp s ctr op
    runOps r.1 r.2 ops

/-! ## Process-level trace (for the process-wide comment-id counter)

The counter `nextCommentId` lives at module level in `reviewSession.ts`:
it is shared by every session created in the process and is never reset. -/

/-- One process-level event: starting a (new) session — which does not
touch the counter — or a session operation applied to the current session
(a no-op when no session is active, since the methods belong to the
session object). -/
inductive ProcOp where
  | startSession (baseRef headRef : String) (files : List ChangedFile)
      (startedAt : SessionDate)
  | sessionOp (op : SessionOp)

/-- Process state: the optional active session and the module-level
counter. -/
structure ProcState where
  session : Option ReviewSession
  counter : Nat

/-- Apply one process event; returns the counter values consumed as fresh
comment ids by this event (one per `addComment` call). -/
def applyProcOp (st : ProcState) : ProcOp → ProcState × List Nat
  | .startSession b h fs d =>
    ({ session := some (mkSession b h fs d), counter := st.counter }, [])
  | .sessionOp op =>
    match st.session with
    | none => (st, [])
    | some s =>
      let r := applySessionOp s st.counter op
      ({ session := some r.1, counter := r.2 },
       match op with
       | .add _ _ _ _ _ _ _ => [st.counter]
       | _ => [])

/-- Run a process trace, collecting every issued comment-id counter value
in order. -/
def runProc (st : ProcState) : List ProcOp → ProcState × List Nat
  | [] => (st, [])
  | op :: ops =>
    let r := applyProcOp st op
    let rest := runProc r.1 ops
    (rest.1, r.2 ++ rest.2)

/-- The initial process state: `let nextCommentId = 1`, no session. -/
def initialProcState : ProcState := { session := none, counter := 1 }

/-! ## Change-set resolver (`GitService.getChangedFiles`, four-pass version) -/

/-- Embedding of `mapGitStatus` of `gitService.ts`: a `switch` in which `'M'` falls
through to the `default` case, so every unmatched code maps to
`modified`. -/
def mapGitStatus (code : String) : FileStatus :=
  if code = "A" then .added
  else if code = "D" then .deleted
  else if code = "R" then .renamed
  else .modified

/-- Parse one `--name-status` line as the source does: split on tabs, skip
lines with fewer than two fields, take `parts[0].charAt(0)` as the status
code, the trimmed second (or, for three-field rename lines, third) field
as the path, and the trimmed second field as the old path for rename
lines. -/
def parseNameStatusLine (line : String) :
    Option (String × String × Option String) :=
  let parts := (splitTab line.toList).map (fun cs => (⟨cs⟩ : String))
  if parts.length < 2 then none
  else
    let statusCode := charAt0 (parts.getD 0 "")
    let filePath := jsTrim (if parts.length = 3 then parts.getD 2 "" else parts.getD 1 "")
    let oldPath := if parts.length = 3 then some (jsTrim (parts.getD 1 "")) else none
    some (statusCode, filePath, oldPath)

/-- One entry of the `diffSummary` result: file name with insertion and
deletion counts. -/
structure SummaryEntry where
  file : String
  insertions : Nat
  deletions : Nat
deriving DecidableEq, Repr

/-- Embedding of `statsByFile.get` — the lookup map is built by successive `Map.set`
calls, so the last summary entry for a name wins. -/
def lookupSummary (summary : List SummaryEntry) (p : String) : Option (Nat × Nat) :=
  (summary.reverse.find? (fun e => decide (e.file = p))).map
    (fun e => (e.insertions, e.deletions))

/-- Embedding of the fallback chain `statsByFile.get(filePath) ?? statsByFile.get(oldPath ?? '') ?? zero`. -/
def statsFor (summary : List SummaryEntry) (p : String) (old : Option String) :
    Nat × Nat :=
  match lookupSummary summary p with
  | some st => st
  | none =>
    match lookupSummary summary (old.getD "") with
    | some st => st
    | none => (0, 0)

/-- Resolver accumulator: the `seenPaths` set (insertion order kept so the
`seen = recorded paths` invariant is a list identity) and the output
list. -/
structure ResolveState where
  seen : List String
  files : List ChangedFile
deriving Repr

/-- Process one `--name-status` line of a diff pass.  `stats` supplies the
line counts recorded for a newly seen path: the committed pass looks them
up in its diff summary, the staged and unstaged passes record zeros. -/
def diffPassStep (stats : String → Option String → Nat × Nat)
    (st : ResolveState) (line : String) : ResolveState :=
  match parseNameStatusLine line with
  | none => st
  | some (code, fp, old) =>
    if fp = "" ∨ fp ∈ st.seen then st
    else
      let s := stats fp old
      { seen := st.seen ++ [fp]
        files := st.files ++
          [{ path := fp, status := mapGitStatus code,
             additions := s.1, deletions := s.2, oldPath := old }] }

/-- Process one line of `ls-files --others --exclude-standard`: untracked
files are pushed with status `added` and zero counts. -/
def untrackedStep (st : ResolveState) (rawPath : String) : ResolveState :=
  let fp := jsTrim rawPath
  if fp = "" ∨ fp ∈ st.seen then st
  else
    { seen := st.seen ++ [fp]
      files := st.files ++ [{ path := fp, status := .added,
                              additions := 0, deletions := 0, oldPath := none }] }

/-- The outcomes of the git commands consumed by `getChangedFiles`, each
pass's output pre-split into lines; `.error` models the command throwing
(pass 1 issues two commands inside one `try`, so its outcome covers
both). -/
structure GitInputs where
  committed : Except Unit (List String × List SummaryEntry)
  staged : Except Unit (List String)
  unstaged : Except Unit (List String)
  untracked : Except Unit (List String)

/-- Pass 1 (committed diff between the refs): contributes nothing when its
commands threw. -/
def committedPass (inp : GitInputs) : ResolveState :=
  match inp.committed with
  | .error _ => { seen := [], files := [] }
  | .ok (lines, summary) =>
    (lines.filter (fun l => ¬ l = "")).foldl
      (diffPassStep (statsFor summary)) { seen := [], files := [] }

/-- Run a staged/unstaged diff pass over its outcome. -/
def zeroStatsPass (st : ResolveState) : Except Unit (List String) → ResolveState
  | .error _ => st
  | .ok lines =>
    (lines.filter (fun l => ¬ l = "")).foldl
      (diffPassStep (fun _ _ => (0, 0))) st

/-- Pass 4 (`ls-files --others --exclude-standard`) over its outcome. -/
def untrackedPass (st : ResolveState) : Except Unit (List String) → ResolveState
  | .error _ => st
  | .ok lines => (lines.filter (fun l => ¬ l = "")).foldl untrackedStep st

/-- Embedding of `GitService.getChangedFiles` of the four-pass resolver: committed
diff, staged, unstaged, untracked — each pass `try`-wrapped, first-seen
path wins, later passes never touch recorded entries. -/
def getChangedFiles (inp : GitInputs) : List ChangedFile :=
  (untrackedPass
    (zeroStatsPass (zeroStatsPass (committedPass inp) inp.staged) inp.unstaged)
    inp.untracked).files

/-- Modelled from the spec: the line counts the claim predicts for a path
present in both the committed diff and the staged pass — "the committed
stats with the staged-only diff-summary counts added to them".  The code
never requests a staged-only diff summary, so this quantity exists only on
the spec side. -/
def claimedCombinedStats (committedStats stagedOnlyStats : Nat × Nat) : Nat × Nat :=
  (committedStats.1 + stagedOnlyStats.1, committedStats.2 + stagedOnlyStats.2)

/-! ## TOML serialization (`src/utils/toml.ts`) -/

/-- Pass `.replace(/\\/g, '\\\\')`. -/
def escBackslash (cs : List Char) : List Char :=
  cmap (fun c => if c = '\\' then ['\\', '\\'] else [c]) cs

/-- Pass `.replace(/"/g, '\\"')`. -/
def escQuote (cs : List Char) : List Char :=
  cmap (fun c => if c = '"' then ['\\', '"'] else [c]) cs

/-- Pass `.replace(/\t/g, '\\t')`. -/
def escTab (cs : List Char) : List Char :=
  cmap (fun c => if c = '\t' then ['\\', 't'] else [c]) cs

/-- Pass `.replace(/\r/g, '\\r')`. -/
def escCarriage (cs : List Char) : List Char :=
  cmap (fun c => if c = '\r' then ['\\', 'r'] else [c]) cs

/-- Pass `.replace(/"""/g, '\\"\\"\\"')` — left-to-right, non-overlapping. -/
def escTripleQuote : List Char → List Char
  | '"' :: '"' :: '"' :: rest =>
    '\\' :: '"' :: '\\' :: '"' :: '\\' :: '"' :: escTripleQuote rest
  | c :: rest => c :: escTripleQuote rest
  | [] => []

/-- Embedding of `tomlStr` of `toml.ts`: multi-line basic string (triple-quoted block
wrapped in newlines) when the value contains a newline, single-line basic
string with `\\`, `"`, tab and carriage-return escaping otherwise. -/
def tomlStr (value : String) : String :=
  let cs := value.toList
  if cs.contains '\n' then
    ⟨['"', '"', '"', '\n'] ++ escTripleQuote (escBackslash cs) ++ ['\n', '"', '"', '"']⟩
  else
    ⟨'"' :: escCarriage (escTab (escQuote (escBackslash cs))) ++ ['"']⟩

/-- JS boolean rendering. -/
def boolStr (b : Bool) : String := if b then "true" else "false"

/-- The `[[comments]]` block for one comment (`endLine` omitted when equal
to `line`, `codeContext` omitted when absent or empty — JS truthiness). -/
def commentBlock (c : ReviewComment) : List String :=
  ["[[comments]]", "file = " ++ tomlStr c.file, "line = " ++ decString c.line] ++
  (match c.endLine with
   | some e => if e = c.line then [] else ["endLine = " ++ decString e]
   | none => []) ++
  ["severity = " ++ tomlStr (match c.severity with
      | .must_fix => "must_fix" | .suggestion => "suggestion"
      | .nitpick => "nitpick" | .question => "question"),
   "body = " ++ tomlStr c.body] ++
  (match c.codeContext with
   | some ctx => if ctx = "" then [] else ["codeContext = " ++ tomlStr ctx]
   | none => []) ++
  ["resolved = " ++ boolStr c.resolved, "timestamp = " ++ c.timestamp, ""]

/-- The `[[reviewedFiles]]` block for one file. -/
def reviewedFileBlock (f : ReviewedFile) : List String :=
  ["[[reviewedFiles]]", "path = " ++ tomlStr f.path,
   "status = " ++ tomlStr (match f.status with
      | .added => "added" | .modified => "modified"
      | .deleted => "deleted" | .renamed => "renamed"),
   "reviewed = " ++ boolStr f.reviewed, ""]

/-- Embedding of `serializeToToml` of `toml.ts`: header, `[review]`, `[stats]`, one
`[[comments]]` block per comment and one `[[reviewedFiles]]` block per
file, joined by newlines.  The `timestamp` values are emitted unquoted. -/
def serializeToToml (review : ReviewData) : String :=
  let lines : List String :=
    ["# AI Review Output", "# Generated at " ++ review.timestamp, "",
     "[review]",
     "id = " ++ tomlStr review.id,
     "timestamp = " ++ review.timestamp,
     "baseRef = " ++ tomlStr review.baseRef,
     "headRef = " ++ tomlStr review.headRef,
     "decision = " ++ tomlStr (match review.decision with
        | .approve => "approve" | .comment => "comment"
        | .request_changes => "request_changes"),
     "summary = " ++ tomlStr review.summary,
     "",
     "[stats]",
     "filesChanged = " ++ decString review.stats.filesChanged,
     "filesReviewed = " ++ decString review.stats.filesReviewed,
     "totalComments = " ++ decString review.stats.totalComments,
     "mustFix = " ++ decString review.stats.mustFix,
     "suggestions = " ++ decString review.stats.suggestions,
     "nitpicks = " ++ decString review.stats.nitpicks,
     "questions = " ++ decString review.stats.questions] ++
    (if review.comments.length > 0 then
       "" :: review.comments.flatMap commentBlock
     else []) ++
    (if review.reviewedFiles.length > 0 then
       review.reviewedFiles.flatMap reviewedFileBlock
     else [])
  String.intercalate "\n" lines

/-! ## TOML string parsing (per TOML semantics, as the claim fixes them)

Inverse direction for the round-trip claim: a TOML basic string unescapes
`\\`, `\"`, `\t`, `\r`; a multi-line basic string is delimited by `"""`
and a newline immediately following the opening delimiter is trimmed. -/

/-- Unescape the body of a (multi-line) basic string.  Unknown escape
sequences are kept literally (lenient; the serializer never produces
them). -/
def unescToml : List Char → List Char
  | [] => []
  | [c] => if c = '\\' then ['\\'] else [c]
  | c :: d :: rest =>
    if c = '\\' then
      (if d = '\\' then ['\\']
       else if d = '"' then ['"']
       else if d = 't' then ['\t']
       else if d = 'r' then ['\r']
       else ['\\', d]) ++ unescToml rest
    else c :: unescToml (d :: rest)

/-- Per TOML: trim a newline immediately following the opening `"""`. -/
def trimLeadingNewline : List Char → List Char
  | '\n' :: rest => rest
  | cs => cs

/-- Strip a leading and trailing three-quote delimiter. -/
def stripTripleDelims (cs : List Char) : Option (List Char) :=
  match cs with
  | '"' :: '"' :: '"' :: rest =>
    if rest.length ≥ 3 ∧ rest.drop (rest.length - 3) = ['"', '"', '"'] then
      some (rest.take (rest.length - 3))
    else none
  | _ => none

/-- Parse a serialized TOML string value (either form) back to the string
it denotes, per TOML semantics. -/
def parseTomlString (s : String) : Option String :=
  let cs := s.toList
  match stripTripleDelims cs with
  | some body => some ⟨unescToml (trimLeadingNewline body)⟩
  | none =>
    match cs with
    | '"' :: rest =>
      if rest.length ≥ 1 ∧ rest.drop (rest.length - 1) = ['"'] then
        some ⟨unescToml (rest.take (rest.length - 1))⟩
      else none
    | _ => none

/-! ## Submit orchestration (`ReviewManager.handleSubmit`) -/

/-- The orchestrator state relevant to submission: the optional active
session (`this.session`). -/
structure ManagerState where
  session : Option ReviewSession

/-- Observable outcome of one `handleSubmit` call. -/
inductive SubmitResult where
  | noSession
  | saved (path : String)
  | failed (err : String)
deriving DecidableEq, Repr

/-- Embedding of `ReviewManager.handleSubmit`: snapshot the session into a
`ReviewData`, persist it via `saveReview` (modelled by the `save`
outcome function), and only on success discard the session
(`cancelReview` sets it to `null`); a throwing `saveReview` lands in the
`catch` block, which surfaces the error and leaves the session in place.
The user-facing notifications of the success path are modelled as
non-throwing. -/
def handleSubmit (st : ManagerState) (decision : ReviewDecision)
    (summary : String) (save : ReviewData → Except String String) :
    ManagerState × SubmitResult :=
  match st.session with
  | none => (st, .noSession)
  | some sess =>
    let doc := toReviewData sess decision summary
    match save doc with
    | .error e => (st, .failed e)
    | .ok path => ({ session := none }, .saved path)

/-! ## Concrete fixtures -/

/-- A one-file change set used by the concrete instances. -/
def c1File : ChangedFile :=
  { path := "a.ts", status := .modified, additions := 1, deletions := 1, oldPath := none }

/-- A fixed session start date. -/
def c1Date : SessionDate :=
  { year := 2026, monthIndex := 0, day := 1, hours := 0, minutes := 0, seconds := 0,
    iso := "2026-01-01T00:00:00.000Z" }

/-- A fresh session over the change set `[a.ts]`. -/
def c1Session : ReviewSession := mkSession "HEAD~1" "HEAD" [c1File] c1Date

/-- The session after an `addComment` request naming `b.ts`, a file that is
not in the change set (counter value 1, as at process start). -/
def c1After : ReviewSession :=
  (addComment c1Session 1 "b.ts" 3 "typo" .suggestion none none
    "2026-01-01T00:01:00.000Z").2.1

/-! ## Resolver invariants (for C3) -/

/-- The `seenPaths` set of the resolver always equals the set of recorded
paths — in this embedding, the list identity below. -/
def SeenInv (st : ResolveState) : Prop :=
  st.seen = st.files.map ChangedFile.path

/-- Specification of a resolver step: it either leaves the state alone or
appends exactly one file whose path was unseen, recording that path as
seen; `Q` constrains the appended file. -/
def StepOK (step : ResolveState → String → ResolveState)
    (Q : ChangedFile → Prop) : Prop :=
  ∀ st line, step st line = st ∨
    ∃ cf, cf.path ∉ st.seen ∧ Q cf ∧
      step st line = { seen := st.seen ++ [cf.path], files := st.files ++ [cf] }

/-- Concrete resolver input for the C3 counterexample: `a.ts` appears in
the committed diff with 2 added and 3 deleted lines and again in the
staged pass; the
staged-only change adds one line (the claim-side staged-only summary is
`(1, 0)`). -/
def c3Inp : GitInputs :=
  { committed := .ok (["M\ta.ts"], [⟨"a.ts", 2, 3⟩])
    staged := .ok ["M\ta.ts"]
    unstaged := .ok []
    untracked := .ok [] }

/-- A session with one comment (id `comment-5`), used as the C10
witness. -/
def c10Session : ReviewSession :=
  (addComment (mkSession "main" "HEAD" [c1File] c1Date) 5 "a.ts" 2 "old text"
    .nitpick none none "2026-01-01T00:02:00.000Z").2.1


/-! ## Auxiliary lemmas -/

/-- The fuel argument of `decDigitsAux` is irrelevant once it exceeds the
number. -/
theorem decDigitsAux_congr :
    ∀ f1 f2 n, n < f1 → n < f2 → decDigitsAux f1 n = decDigitsAux f2 n := by
  intro f1
  induction f1 with
  | zero => intro f2 n h1 _; omega
  | succ k ih =>
    intro f2 n h1 h2
    cases f2 with
    | zero => omega
    | succ m =>
      by_cases h : n < 10
      · simp [decDigitsAux, h]
      · have hd : n / 10 < n := Nat.div_lt_self (by omega) (by omega)
        simp only [decDigitsAux, if_neg h]
        rw [ih m (n / 10) (by omega) (by omega)]

/-- Unfolding equation for `decDigits` in its natural recursive form. -/
theorem decDigits_eq (n : Nat) :
    decDigits n =
      if n < 10 then [decDigit n] else decDigits (n / 10) ++ [decDigit (n % 10)] := by
  by_cases h : n < 10
  · simp [decDigits, decDigitsAux, h]
  · have hd : n / 10 < n := Nat.div_lt_self (by omega) (by omega)
    have h1 : decDigits n = decDigitsAux n (n / 10) ++ [decDigit (n % 10)] := by
      show (if n < 10 then [decDigit n]
            else decDigitsAux n (n / 10) ++ [decDigit (n % 10)]) = _
      rw [if_neg h]
    rw [h1, if_neg h, decDigits,
      decDigitsAux_congr n (n / 10 + 1) (n / 10) (by omega) (by omega)]

/-- A decimal rendering is never empty. -/
theorem decDigits_ne_nil (n : Nat) : decDigits n ≠ [] := by
  rw [decDigits_eq]
  by_cases h : n < 10 <;> simp [h]

/-- The map `decDigit` is injective on single digits. -/
theorem decDigit_inj_lt :
    ∀ a < 10, ∀ b < 10, decDigit a = decDigit b → a = b := by decide

/-- Decimal renderings of distinct numbers differ. -/
theorem decDigits_inj : ∀ a b : Nat, decDigits a = decDigits b → a = b := by
  intro a
  induction a using Nat.strong_induction_on with
  | _ a ih =>
    intro b h
    rw [decDigits_eq a, decDigits_eq b] at h
    by_cases ha : a < 10 <;> by_cases hb : b < 10
    · simp only [if_pos ha, if_pos hb, List.cons.injEq] at h
      exact decDigit_inj_lt a ha b hb h.1
    · exfalso
      simp only [if_pos ha, if_neg hb] at h
      have hpos : 0 < (decDigits (b / 10)).length :=
        List.length_pos.mpr (decDigits_ne_nil _)
      have hlen := congrArg List.length h
      simp only [List.length_append, List.length_cons, List.length_nil] at hlen
      omega
    · exfalso
      simp only [if_neg ha, if_pos hb] at h
      have hpos : 0 < (decDigits (a / 10)).length :=
        List.length_pos.mpr (decDigits_ne_nil _)
      have hlen := congrArg List.length h
      simp only [List.length_append, List.length_cons, List.length_nil] at hlen
      omega
    · simp only [if_neg ha, if_neg hb] at h
      obtain ⟨h1, h2⟩ := List.append_inj' h (by simp)
      have hda : a / 10 < a := Nat.div_lt_self (by omega) (by omega)
      have hq : a / 10 = b / 10 := ih (a / 10) hda (b / 10) h1
      have hr : a % 10 = b % 10 := by
        injection h2 with h3 h4
        exact decDigit_inj_lt _ (Nat.mod_lt _ (by omega)) _ (Nat.mod_lt _ (by omega)) h3
      omega

/-- The decimal rendering `decString` is injective. -/
theorem decString_inj : Function.Injective decString := by
  intro a b h
  exact decDigits_inj a b (by simpa [decString] using congrArg String.data h)

/-- Issued comment-id strings are injective in the counter value. -/
theorem commentIdString_inj : Function.Injective commentIdString := by
  intro a b h
  apply decString_inj
  have : ("comment-".data ++ (decString a).data) = ("comment-".data ++ (decString b).data) := by
    simpa [commentIdString, String.append] using congrArg String.data h
  exact String.ext (List.append_cancel_left this)

/-- Any list of review comments is partitioned by the four severities:
its length is the sum of the four per-severity filter lengths. -/
theorem length_eq_severity_sum (l : List ReviewComment) :
    l.length =
      (l.filter (fun c => decide (c.severity = .must_fix))).length +
      (l.filter (fun c => decide (c.severity = .suggestion))).length +
      (l.filter (fun c => decide (c.severity = .nitpick))).length +
      (l.filter (fun c => decide (c.severity = .question))).length := by
  induction l with
  | nil => rfl
  | cons c t ih =>
    cases h : c.severity <;> simp [List.filter_cons, h] <;> omega

/-- No session operation changes `startedAt`. -/
theorem applySessionOp_startedAt (s : ReviewSession) (ctr : Nat) (op : SessionOp) :
    (applySessionOp s ctr op).1.startedAt = s.startedAt := by
  cases op <;>
    simp [applySessionOp, addComment, removeComment, updateComment,
      toggleResolved, markFileReviewed, unmarkFileReviewed, toggleFileReviewed] <;>
    split <;> simp

/-- The field `startedAt` is invariant under any sequence of session operations. -/
theorem runOps_startedAt :
    ∀ (ops : List SessionOp) (s : ReviewSession) (ctr : Nat),
      (runOps s ctr ops).1.startedAt = s.startedAt := by
  intro ops
  induction ops with
  | nil => intro s ctr; rfl
  | cons op ops ih =>
    intro s ctr
    simp only [runOps]
    rw [ih]
    exact applySessionOp_startedAt s ctr op

/-! ## Claim theorems -/

/-- C1 (counterexample): `addComment` naming `b.ts`, which is not the path
of any `ChangedFile` of the session, is NOT rejected: the comment is
persisted and the subsequent `getStats()` count changes from 0 to 1. -/
theorem c1_rejection_counterexample :
    "b.ts" ∉ getFilePaths c1Session ∧
    (∃ c ∈ c1After.comments, c.file = "b.ts") ∧
    (getStats c1Session).totalComments = 0 ∧
    (getStats c1After).totalComments = 1 := by decide

/-- C1 (amended): `addComment` performs no validation of its `file`
argument against the session's change set — a request naming a file that
is not the path of any `ChangedFile` in the session is persisted all the
same (the session gains the comment and `getStats().totalComments` grows
by one); the only gating in the source is the UI commenting-range
provider, which offers no commenting ranges on files outside the session.
The freshness hypothesis on the issued id reflects the process-wide
counter, which never reissues an id. -/
theorem c1_comment_outside_changeset_persisted
    (s : ReviewSession) (ctr : Nat) (file : String) (line : Nat) (body : String)
    (sev : CommentSeverity) (endLine : Option Nat) (cc : Option String) (now : String)
    (_hfile : file ∉ getFilePaths s)
    (hfresh : ∀ c ∈ s.comments, c.id ≠ commentIdString ctr) :
    (addComment s ctr file line body sev endLine cc now).1 ∈
      (addComment s ctr file line body sev endLine cc now).2.1.comments ∧
    (addComment s ctr file line body sev endLine cc now).1.file = file ∧
    (getStats (addComment s ctr file line body sev endLine cc now).2.1).totalComments =
      (getStats s).totalComments + 1 := by
  have hany : s.comments.any (fun d => decide (d.id = commentIdString ctr)) = false := by
    simp only [List.any_eq_false, decide_eq_true_eq]
    intro c hc
    exact hfresh c hc
  constructor
  · simp [addComment, commentsSet, hany]
  constructor
  · rfl
  · simp [addComment, commentsSet, hany, getStats]

/-- C1 witness: the amended theorem applied to the concrete session over
`[a.ts]` and the out-of-change-set file `b.ts`. -/
theorem c1_comment_outside_changeset_persisted_witness :
    (addComment c1Session 1 "b.ts" 3 "typo" .suggestion none none
        "2026-01-01T00:01:00.000Z").1 ∈
      (addComment c1Session 1 "b.ts" 3 "typo" .suggestion none none
        "2026-01-01T00:01:00.000Z").2.1.comments ∧
    (addComment c1Session 1 "b.ts" 3 "typo" .suggestion none none
        "2026-01-01T00:01:00.000Z").1.file = "b.ts" ∧
    (getStats (addComment c1Session 1 "b.ts" 3 "typo" .suggestion none none
        "2026-01-01T00:01:00.000Z").2.1).totalComments =
      (getStats c1Session).totalComments + 1 :=
  c1_comment_outside_changeset_persisted c1Session 1 "b.ts" 3 "typo" .suggestion
    none none "2026-01-01T00:01:00.000Z" (by decide) (by decide)

/-- C2 (code bug): serializing the string `"a\nb"` (a comment body with a
newline) produces the multi-line block `"""\na\nb\n"""`; per TOML only the
newline immediately following the opening delimiter is trimmed, so the
value parses back as `"a\nb\n"` — the round-trip appends a trailing
newline instead of being lossless. -/
theorem c2_toml_roundtrip_bug :
    tomlStr "a\nb" = "\"\"\"\na\nb\n\"\"\"" ∧
    parseTomlString (tomlStr "a\nb") = some "a\nb\n" ∧
    parseTomlString (tomlStr "a\nb") ≠ some "a\nb" := by decide

/-- C4: after any sequence of session operations (in particular any
sequence of `addComment`/`removeComment` calls), `getStats().totalComments`
equals the number of comments currently present in the session and equals
the sum of the four severity buckets. -/
theorem c4_stats_consistent (s : ReviewSession) (ctr : Nat) (ops : List SessionOp) :
    (getStats (runOps s ctr ops).1).totalComments =
      (runOps s ctr ops).1.comments.length ∧
    (getStats (runOps s ctr ops).1).totalComments =
      (getStats (runOps s ctr ops).1).mustFix +
      (getStats (runOps s ctr ops).1).suggestions +
      (getStats (runOps s ctr ops).1).nitpicks +
      (getStats (runOps s ctr ops).1).questions :=
  ⟨rfl, length_eq_severity_sum (runOps s ctr ops).1.comments⟩

/-- C5: a failing resolution pass contributes zero files and aborts
nothing: for each of the four passes, an outcome that threw is observably
identical to an outcome with empty output, and in the concrete scenario
where only the untracked pass succeeds — with one file — exactly that one
file is returned. -/
theorem c5_pass_failure_tolerated :
    (∀ (inp : GitInputs) (u : Unit),
       getChangedFiles { inp with committed := .error u } =
       getChangedFiles { inp with committed := .ok ([], []) }) ∧
    (∀ (inp : GitInputs) (u : Unit),
       getChangedFiles { inp with staged := .error u } =
       getChangedFiles { inp with staged := .ok [] }) ∧
    (∀ (inp : GitInputs) (u : Unit),
       getChangedFiles { inp with unstaged := .error u } =
       getChangedFiles { inp with unstaged := .ok [] }) ∧
    (∀ (inp : GitInputs) (u : Unit),
       getChangedFiles { inp with untracked := .error u } =
       getChangedFiles { inp with untracked := .ok [] }) ∧
    getChangedFiles
      { committed := .error (), staged := .error (), unstaged := .error (),
        untracked := .ok ["file.ts"] } =
      [{ path := "file.ts", status := .added, additions := 0, deletions := 0,
         oldPath := none }] := by
  refine ⟨fun inp u => rfl, fun inp u => rfl, fun inp u => rfl, fun inp u => rfl, ?_⟩
  decide

/-- C6 (counterexample): the resolver's status-letter mapping sends the
unmatched marker `"?"` to `modified`, not to `added` as claimed. -/
theorem c6_unmatched_added_counterexample :
    mapGitStatus "?" = .modified ∧ mapGitStatus "?" ≠ .added := by decide

/-- C6 (amended): the mapping sends `'A'` to added, `'D'` to deleted,
`'R'` to renamed, `'M'` to modified, and every unmatched marker also to
`modified` (the switch's default case); untracked files never pass through
the mapping — the untracked pass hardcodes `added`. -/
theorem c6_status_mapping :
    mapGitStatus "A" = .added ∧ mapGitStatus "D" = .deleted ∧
    mapGitStatus "R" = .renamed ∧ mapGitStatus "M" = .modified ∧
    (∀ code : String, code ≠ "A" → code ≠ "D" → code ≠ "R" →
      mapGitStatus code = .modified) := by
  refine ⟨rfl, rfl, rfl, rfl, fun code h1 h2 h3 => ?_⟩
  simp [mapGitStatus, h1, h2, h3]

/-- C6 witness: the amended mapping at the concrete unmatched marker
`"?"`. -/
theorem c6_status_mapping_witness : mapGitStatus "?" = .modified :=
  c6_status_mapping.2.2.2.2 "?" (by decide) (by decide) (by decide)

/-- C7: when persisting throws during submit, the error is surfaced and
the whole manager state — in particular the active session with all its
comments and reviewed flags — is unchanged, so submission can be retried;
only when `saveReview` succeeds is the session discarded (set to `none`,
i.e. the Idle state). -/
theorem c7_failed_save_keeps_session
    (st : ManagerState) (sess : ReviewSession) (d : ReviewDecision)
    (summary : String) (save : ReviewData → Except String String)
    (hs : st.session = some sess) :
    (∀ e, save (toReviewData sess d summary) = .error e →
       handleSubmit st d summary save = (st, .failed e)) ∧
    (∀ p, save (toReviewData sess d summary) = .ok p →
       handleSubmit st d summary save = ({ session := none }, .saved p)) := by
  constructor <;> intro x hx <;> simp [handleSubmit, hs, hx]

/-- C7 witness: a concrete failing save leaves the concrete session in
place and surfaces the error. -/
theorem c7_failed_save_keeps_session_witness :
    handleSubmit { session := some c1Session } .approve "done"
        (fun _ => .error "disk full") =
      ({ session := some c1Session }, .failed "disk full") :=
  (c7_failed_save_keeps_session { session := some c1Session } c1Session .approve
    "done" (fun _ => .error "disk full") rfl).1 "disk full" rfl

/-- C8: `toReviewDocument` is embedded as a pure read (the method body
performs no writes), and the document id depends only on the session's
`startedAt`, which no session operation changes: a snapshot taken after
any sequence of operations carries the same id as one taken before, for
any decisions and summaries. -/
theorem c8_snapshot_id_stable
    (s : ReviewSession) (ctr : Nat) (ops : List SessionOp)
    (d1 d2 : ReviewDecision) (sum1 sum2 : String) :
    (toReviewData (runOps s ctr ops).1 d1 sum1).id =
      (toReviewData s d2 sum2).id := by
  simp [toReviewData, runOps_startedAt]

/-- A diff pass step satisfies the step specification. -/
theorem stepOK_diffPassStep (stats : String → Option String → Nat × Nat)
    (Q : ChangedFile → Prop)
    (hQ : ∀ code fp old,
      Q ⟨fp, mapGitStatus code, (stats fp old).1, (stats fp old).2, old⟩) :
    StepOK (diffPassStep stats) Q := by
  intro st line
  unfold diffPassStep
  cases hp : parseNameStatusLine line with
  | none => left; rfl
  | some t =>
    obtain ⟨code, fp, old⟩ := t
    by_cases hskip : fp = "" ∨ fp ∈ st.seen
    · left; simp [hskip]
    · right
      refine ⟨⟨fp, mapGitStatus code, (stats fp old).1, (stats fp old).2, old⟩,
              fun hmem => hskip (Or.inr hmem), hQ code fp old, ?_⟩
      simp [hskip]

/-- The untracked pass step satisfies the step specification with zero
line counts. -/
theorem stepOK_untrackedStep :
    StepOK untrackedStep (fun cf => cf.additions = 0 ∧ cf.deletions = 0) := by
  intro st line
  unfold untrackedStep
  by_cases hskip : jsTrim line = "" ∨ jsTrim line ∈ st.seen
  · left; simp [hskip]
  · right
    exact ⟨⟨jsTrim line, .added, 0, 0, none⟩,
           fun hmem => hskip (Or.inr hmem), ⟨rfl, rfl⟩, by simp [hskip]⟩

/-- Folding step-specified steps preserves `SeenInv`, only ever appends
`Q`-files, and preserves distinctness of the recorded paths. -/
theorem foldl_stepOK {step : ResolveState → String → ResolveState}
    {Q : ChangedFile → Prop} (hstep : StepOK step Q) :
    ∀ (lines : List String) (st : ResolveState), SeenInv st →
      SeenInv (lines.foldl step st) ∧
      (∃ rest, (lines.foldl step st).files = st.files ++ rest ∧
        ∀ f ∈ rest, Q f) ∧
      ((st.files.map ChangedFile.path).Nodup →
        ((lines.foldl step st).files.map ChangedFile.path).Nodup) := by
  intro lines
  induction lines with
  | nil => intro st hinv; exact ⟨hinv, ⟨[], by simp, by simp⟩, fun h => h⟩
  | cons line rest ih =>
    intro st hinv
    simp only [List.foldl_cons]
    rcases hstep st line with heq | ⟨cf, hnot, hQ, heq⟩
    · rw [heq]; exact ih st hinv
    · rw [heq]
      have hnotp : cf.path ∉ st.files.map ChangedFile.path := by
        rw [← hinv]; exact hnot
      have hinv2 : SeenInv { seen := st.seen ++ [cf.path],
                             files := st.files ++ [cf] } := by
        unfold SeenInv
        simp only [List.map_append, List.map_cons, List.map_nil]
        rw [hinv]
      obtain ⟨h1, ⟨r2, hr2, hQ2⟩, h3⟩ := ih _ hinv2
      refine ⟨h1, ⟨cf :: r2, ?_, ?_⟩, ?_⟩
      · rw [hr2]; simp
      · intro f hf
        rcases List.mem_cons.mp hf with hf | hf
        · exact hf ▸ hQ
        · exact hQ2 f hf
      · intro hnd
        apply h3
        simp only [List.map_append, List.map_cons, List.map_nil]
        rw [List.nodup_append]
        exact ⟨hnd, List.nodup_singleton _, by
          intro x hx hx1
          simp only [List.mem_singleton] at hx1
          exact hnotp (hx1 ▸ hx)⟩

/-- The committed pass starts from the empty state, so it satisfies the
invariants outright. -/
theorem committedPass_inv (inp : GitInputs) :
    SeenInv (committedPass inp) ∧
    ((committedPass inp).files.map ChangedFile.path).Nodup := by
  unfold committedPass
  cases inp.committed with
  | error u => exact ⟨rfl, by simp⟩
  | ok p =>
    obtain ⟨lines, summary⟩ := p
    have h := foldl_stepOK
      (stepOK_diffPassStep (statsFor summary) (fun _ => True) (fun _ _ _ => trivial))
      (lines.filter (fun l => ¬ l = "")) { seen := [], files := [] } rfl
    exact ⟨h.1, h.2.2 (by simp)⟩

/-- A staged/unstaged pass preserves the invariants and appends only
zero-count entries. -/
theorem zeroStatsPass_inv (st : ResolveState) (inp : Except Unit (List String))
    (hinv : SeenInv st) :
    SeenInv (zeroStatsPass st inp) ∧
    (∃ rest, (zeroStatsPass st inp).files = st.files ++ rest ∧
      ∀ f ∈ rest, f.additions = 0 ∧ f.deletions = 0) ∧
    ((st.files.map ChangedFile.path).Nodup →
      ((zeroStatsPass st inp).files.map ChangedFile.path).Nodup) := by
  cases inp with
  | error u => exact ⟨hinv, ⟨[], by simp [zeroStatsPass], by simp⟩, fun h => h⟩
  | ok lines =>
    exact foldl_stepOK
      (stepOK_diffPassStep (fun _ _ => (0, 0)) _ (fun _ _ _ => ⟨rfl, rfl⟩))
      (lines.filter (fun l => ¬ l = "")) st hinv

/-- The untracked pass preserves the invariants and appends only
zero-count entries. -/
theorem untrackedPass_inv (st : ResolveState) (inp : Except Unit (List String))
    (hinv : SeenInv st) :
    SeenInv (untrackedPass st inp) ∧
    (∃ rest, (untrackedPass st inp).files = st.files ++ rest ∧
      ∀ f ∈ rest, f.additions = 0 ∧ f.deletions = 0) ∧
    ((st.files.map ChangedFile.path).Nodup →
      ((untrackedPass st inp).files.map ChangedFile.path).Nodup) := by
  cases inp with
  | error u => exact ⟨hinv, ⟨[], by simp [untrackedPass], by simp⟩, fun h => h⟩
  | ok lines =>
    exact foldl_stepOK stepOK_untrackedStep
      (lines.filter (fun l => ¬ l = "")) st hinv

/-- C3 (amended): each path appears exactly once in the resolver's output;
the committed-diff pass's entries come first and are preserved verbatim —
status and line counts frozen exactly as the committed pass computed them,
with no later additive update — and every entry contributed by a later
pass carries zero line counts. -/
theorem c3_dedup_committed_stats (inp : GitInputs) :
    ((getChangedFiles inp).map ChangedFile.path).Nodup ∧
    ∃ rest, getChangedFiles inp = (committedPass inp).files ++ rest ∧
      ∀ f ∈ rest, f.additions = 0 ∧ f.deletions = 0 := by
  obtain ⟨hinv1, hnd1⟩ := committedPass_inv inp
  obtain ⟨hinv2, ⟨r2, hr2, hq2⟩, hnd2⟩ :=
    zeroStatsPass_inv (committedPass inp) inp.staged hinv1
  obtain ⟨hinv3, ⟨r3, hr3, hq3⟩, hnd3⟩ :=
    zeroStatsPass_inv _ inp.unstaged hinv2
  obtain ⟨hinv4, ⟨r4, hr4, hq4⟩, hnd4⟩ :=
    untrackedPass_inv _ inp.untracked hinv3
  constructor
  · exact hnd4 (hnd3 (hnd2 hnd1))
  · refine ⟨r2 ++ r3 ++ r4, ?_, ?_⟩
    · show (untrackedPass _ _).files = _
      rw [hr4, hr3, hr2]
      simp [List.append_assoc]
    · intro f hf
      simp only [List.mem_append] at hf
      rcases hf with (hf | hf) | hf
      · exact hq2 f hf
      · exact hq3 f hf
      · exact hq4 f hf

/-- C3 (counterexample): for a path present in both the committed diff and
the staged pass, the resolver keeps exactly the committed stats `(2, 3)` —
it never requests a staged-only diff summary and never updates a recorded
entry — whereas the claim predicts the committed stats with the
staged-only counts `(1, 0)` added, i.e. `(3, 3) ≠ (2, 3)`. -/
theorem c3_additive_stats_counterexample :
    getChangedFiles c3Inp =
      [{ path := "a.ts", status := .modified, additions := 2, deletions := 3,
         oldPath := none }] ∧
    claimedCombinedStats (2, 3) (1, 0) ≠ (2, 3) := by decide

/-! ## C9: the process-wide comment-id counter -/

/-- Each process event either issues no id and keeps the counter, or
issues exactly the current counter value and increments it. -/
theorem applyProcOp_counter_cases (st : ProcState) (op : ProcOp) :
    ((applyProcOp st op).2 = [] ∧ (applyProcOp st op).1.counter = st.counter) ∨
    ((applyProcOp st op).2 = [st.counter] ∧
      (applyProcOp st op).1.counter = st.counter + 1) := by
  cases op with
  | startSession b h fs d => left; simp [applyProcOp]
  | sessionOp op2 =>
    cases hs : st.session with
    | none => left; simp [applyProcOp, hs]
    | some s =>
      cases op2 with
      | add f l b sev e cc now =>
        right; simp [applyProcOp, hs, applySessionOp, addComment]
      | remove cid => left; simp [applyProcOp, hs, applySessionOp]
      | update cid b sev => left; simp [applyProcOp, hs, applySessionOp]
      | toggleRes cid => left; simp [applyProcOp, hs, applySessionOp]
      | markRev p => left; simp [applyProcOp, hs, applySessionOp]
      | unmarkRev p => left; simp [applyProcOp, hs, applySessionOp]
      | toggleRev p => left; simp [applyProcOp, hs, applySessionOp]

/-- Along any trace, every issued counter value lies between the starting
counter and the final counter, the counter never decreases, and the issued
values are strictly increasing. -/
theorem runProc_issued_bounds :
    ∀ (ops : List ProcOp) (st : ProcState),
      (∀ x ∈ (runProc st ops).2, st.counter ≤ x ∧ x < (runProc st ops).1.counter) ∧
      st.counter ≤ (runProc st ops).1.counter ∧
      List.Pairwise (· < ·) (runProc st ops).2 := by
  intro ops
  induction ops with
  | nil => intro st; simp [runProc]
  | cons op ops ih =>
    intro st
    simp only [runProc]
    obtain ⟨hmem, hle, hpair⟩ := ih (applyProcOp st op).1
    rcases applyProcOp_counter_cases st op with ⟨h2, hc⟩ | ⟨h2, hc⟩
    · refine ⟨?_, ?_, ?_⟩
      · intro x hx
        rw [h2] at hx
        simp only [List.nil_append] at hx
        have h3 := hmem x hx
        exact ⟨by omega, h3.2⟩
      · omega
      · rw [h2]
        simpa using hpair
    · refine ⟨?_, ?_, ?_⟩
      · intro x hx
        rw [h2] at hx
        rcases List.mem_cons.mp (by simpa using hx) with hx1 | hx1
        · subst hx1
          exact ⟨Nat.le_refl _, by omega⟩
        · have h3 := hmem x hx1
          exact ⟨by omega, h3.2⟩
      · omega
      · rw [h2]
        simp only [List.singleton_append]
        refine List.pairwise_cons.mpr ⟨?_, hpair⟩
        intro y hy
        have h3 := (hmem y hy).1
        omega

/-- C9: along any process trace from the initial state (counter 1, as at
module load), the counter values consumed by `addComment` — across all
sessions of the process — are strictly increasing, and the comment-id
strings built from them are pairwise distinct: no id is ever reused, and
each new id is strictly greater in counter order than every earlier one. -/
theorem c9_comment_ids_monotone (ops : List ProcOp) :
    List.Pairwise (· < ·) (runProc initialProcState ops).2 ∧
    ((runProc initialProcState ops).2.map commentIdString).Nodup := by
  obtain ⟨-, -, hpair⟩ := runProc_issued_bounds ops initialProcState
  refine ⟨hpair, ?_⟩
  have hnd : (runProc initialProcState ops).2.Nodup :=
    hpair.imp (fun h => Nat.ne_of_lt h)
  exact hnd.map commentIdString_inj

/-! ## C10: the frame of `updateComment` -/

/-- C10: `updateComment(id, newBody, newSeverity?)` changes nothing except
the `body` (and, when provided, the `severity`) of the comment with the
given id: the file map, refs and start date are untouched; positionally,
every comment keeps its `id`, `file`, `line`, `endLine`, `codeContext`,
`resolved` and `timestamp`, non-matching comments are entirely unchanged,
and the matching comment gets exactly the new body and the provided (or
retained) severity; when the id is unknown the session is unchanged. -/
theorem c10_updateComment_frame
    (s : ReviewSession) (cid body : String) (sev : Option CommentSeverity) :
    (updateComment s cid body sev).files = s.files ∧
    (updateComment s cid body sev).baseRef = s.baseRef ∧
    (updateComment s cid body sev).headRef = s.headRef ∧
    (updateComment s cid body sev).startedAt = s.startedAt ∧
    List.Forall₂ (fun c c2 =>
        c2.id = c.id ∧ c2.file = c.file ∧ c2.line = c.line ∧
        c2.endLine = c.endLine ∧ c2.codeContext = c.codeContext ∧
        c2.resolved = c.resolved ∧ c2.timestamp = c.timestamp ∧
        (c.id ≠ cid → c2 = c) ∧
        (c.id = cid → c2.body = body ∧ c2.severity = sev.getD c.severity))
      s.comments (updateComment s cid body sev).comments ∧
    ((∀ c ∈ s.comments, c.id ≠ cid) → updateComment s cid body sev = s) := by
  cases hf : s.comments.find? (fun c => decide (c.id = cid)) with
  | none =>
    have hnone : ∀ c ∈ s.comments, c.id ≠ cid := by
      intro c hc
      have := List.find?_eq_none.mp hf c hc
      simpa using this
    have hupd : updateComment s cid body sev = s := by
      simp [updateComment, hf]
    rw [hupd]
    refine ⟨rfl, rfl, rfl, rfl, ?_, fun _ => rfl⟩
    rw [List.forall₂_same]
    intro c hc
    exact ⟨rfl, rfl, rfl, rfl, rfl, rfl, rfl, fun _ => rfl,
           fun hcc => absurd hcc (hnone c hc)⟩
  | some c0 =>
    have hmem0 : c0 ∈ s.comments := List.mem_of_find?_eq_some hf
    have hc0 : c0.id = cid := by
      have := List.find?_some hf
      simpa using this
    have hupd : updateComment s cid body sev =
        { s with comments := s.comments.map (fun c =>
            if c.id = cid then
              { c with body := body, severity := sev.getD c.severity }
            else c) } := by
      simp [updateComment, hf]
    rw [hupd]
    refine ⟨rfl, rfl, rfl, rfl, ?_, ?_⟩
    · show List.Forall₂ _ s.comments (s.comments.map _)
      rw [List.forall₂_map_right_iff, List.forall₂_same]
      intro c hc
      by_cases h : c.id = cid
      · rw [if_pos h]
        exact ⟨rfl, rfl, rfl, rfl, rfl, rfl, rfl,
               fun hne => absurd h hne, fun _ => ⟨rfl, rfl⟩⟩
      · rw [if_neg h]
        exact ⟨rfl, rfl, rfl, rfl, rfl, rfl, rfl,
               fun _ => rfl, fun hcc => absurd hcc h⟩
    · intro hall
      exact absurd hc0 (hall c0 hmem0)

/-- C10 witness: updating an unknown id on the concrete one-comment
session leaves the session unchanged. -/
theorem c10_updateComment_frame_witness :
    updateComment c10Session "comment-9" "new" none = c10Session :=
  (c10_updateComment_frame c10Session "comment-9" "new" none).2.2.2.2.2
    (by decide)
